import Mathlib

/-!
Verification of the WeatherAndDelay gateway (src/api/app/main.py): the
historical bulk-import pipeline (`_ingest_historical_payload`), its key
resolution, enrichment and batching, and the background poller tick
(`_fetch_and_store`, `_poll_loop`).  Python values are embedded as a
JSON-like dynamic value type; Python dicts as association lists with
first-occurrence lookup and in-place update; the MongoDB store boundary
(insert_one / bulk_write with unordered insert and upsert-by-filter
operations) is modelled from its specified interface.
-/

namespace WeatherDelay

/-- Dynamic values: the JSON-shaped Python values that flow through the
ingestion pipeline (None, bool, int, str, list, dict). -/
inductive Val where
  | vnull
  | vbool (b : Bool)
  | vint (n : Int)
  | vstr (s : String)
  | vlist (items : List Val)
  | vobj (fields : List (String × Val))

/-- A Python dict embedded as an association list (unique keys by
construction; lookup takes the first occurrence). -/
abbrev Dict := List (String × Val)

/-- Python value test corresponding to the source checks of the shape
value is not None. -/
def Val.isNull : Val → Bool
  | .vnull => true
  | _ => false

/-- Membership-style lookup: the value stored under a key, if the key is
present. -/
def dGet : Dict → String → Option Val
  | [], _ => none
  | (k, v) :: rest, key => if k = key then some v else dGet rest key

/-- Python dict.get(key): a missing key reads as None (vnull). -/
def dGetD (d : Dict) (key : String) : Val :=
  (dGet d key).getD .vnull

/-- Python dict assignment d[key] = v: replaces the first binding of the
key, or appends a new binding. -/
def dSet : Dict → String → Val → Dict
  | [], key, v => [(key, v)]
  | (k, w) :: rest, key, v =>
      if k = key then (key, v) :: rest else (k, w) :: dSet rest key v

mutual

/-- Structural equality test on dynamic values (Python ==). -/
def Val.beq : Val → Val → Bool
  | .vnull, .vnull => true
  | .vbool a, .vbool b => a == b
  | .vint a, .vint b => a == b
  | .vstr a, .vstr b => a == b
  | .vlist a, .vlist b => beqValList a b
  | .vobj a, .vobj b => beqFields a b
  | _, _ => false

/-- Elementwise equality test on lists of dynamic values. -/
def beqValList : List Val → List Val → Bool
  | [], [] => true
  | x :: xs, y :: ys => Val.beq x y && beqValList xs ys
  | _, _ => false

/-- Pairwise equality test on dict field lists. -/
def beqFields : List (String × Val) → List (String × Val) → Bool
  | [], [] => true
  | (k, v) :: xs, (l, w) :: ys => k == l && Val.beq v w && beqFields xs ys
  | _, _ => false

end

/-- Metadata stamping of one structured entity (main.py lines 189-195):
copy the entity and assign the six import metadata fields. -/
def enrichBase (importedAt sourceUrl : String)
    (exportDate tableName nameFilter totalEntities : Val)
    (entity : Dict) : Dict :=
  let doc := entity
  let doc := dSet doc "imported_at" (.vstr importedAt)
  let doc := dSet doc "source_url" (.vstr sourceUrl)
  let doc := dSet doc "exportDate" exportDate
  let doc := dSet doc "tableName" tableName
  let doc := dSet doc "nameFilter" nameFilter
  let doc := dSet doc "totalEntities" totalEntities
  doc

/-- Enrichment of one structured entity (main.py lines 189-203): stamp
the metadata fields, and when parse_data is set and the data field holds
a string that decodes as JSON, replace it by the decoded structure
(decode failure leaves it untouched).  The JSON decoder json.loads is
standard-library code outside the repository and is passed in as a
function returning none on decode failure. -/
def enrich (jsonParse : String → Option Val) (importedAt sourceUrl : String)
    (exportDate tableName nameFilter totalEntities : Val)
    (parseData : Bool) (entity : Dict) : Dict :=
  let doc := enrichBase importedAt sourceUrl exportDate tableName nameFilter
    totalEntities entity
  if parseData then
    match dGet doc "data" with
    | some (.vstr s) =>
        match jsonParse s with
        | some decoded => dSet doc "data" decoded
        | none => doc
    | _ => doc
  else doc

/-- Key resolution for one enriched record (main.py lines 205-213):
PartitionKey/RowKey pair first, then name, then dataHash, else no key. -/
def resolveFilter (doc : Dict) : Option Dict :=
  let pk := dGetD doc "PartitionKey"
  let rk := dGetD doc "RowKey"
  if !pk.isNull && !rk.isNull then
    some [("PartitionKey", pk), ("RowKey", rk)]
  else if !(dGetD doc "name").isNull then
    some [("name", dGetD doc "name")]
  else if !(dGetD doc "dataHash").isNull then
    some [("dataHash", dGetD doc "dataHash")]
  else
    none

/-- Bulk-write operations handed to the store: pymongo InsertOne(doc) and
UpdateOne(filter, set doc, upsert=True). -/
inductive WriteOp where
  | insertOne (doc : Dict)
  | updateOne (filter : Dict) (doc : Dict)

/-- Operation construction (main.py lines 215-218): an upsert-by-key
operation exactly when the caller requested upsert and a key resolved,
otherwise a plain insert. -/
def buildOp (upsert : Bool) (doc : Dict) : WriteOp :=
  match upsert, resolveFilter doc with
  | true, some filterDoc => .updateOne filterDoc doc
  | true, none => .insertOne doc
  | false, _ => .insertOne doc

/-- Modelled from the spec: the Persistent Store boundary of section 6.
The store holds the documents of one collection in insertion order. -/
structure Store where
  docs : List Dict

/-- Modelled from the spec: per-batch outcome counters returned by
bulk_write (inserted_count, upserted_count, matched_count,
modified_count). -/
structure BulkCounts where
  inserted : Nat
  upserted : Nat
  matched : Nat
  modified : Nat

/-- Zero outcome counters. -/
def BulkCounts.zero : BulkCounts := ⟨0, 0, 0, 0⟩

/-- Componentwise sum of outcome counters. -/
def BulkCounts.add (a b : BulkCounts) : BulkCounts :=
  ⟨a.inserted + b.inserted, a.upserted + b.upserted,
   a.matched + b.matched, a.modified + b.modified⟩

/-- Modelled from the spec: a filter matches a document when every filter
field equals the corresponding document field (a null filter value also
matches a missing field, as in MongoDB; the resolver only ever emits
non-null filter values). -/
def filterMatches (filterDoc : Dict) (doc : Dict) : Bool :=
  filterDoc.all fun kv =>
    match dGet doc kv.1 with
    | some v => Val.beq v kv.2
    | none => kv.2.isNull

/-- Modelled from the spec: applying a set-update writes every given
field into the document. -/
def applySet (doc : Dict) (setDoc : Dict) : Dict :=
  setDoc.foldl (fun acc kv => dSet acc kv.1 kv.2) doc

/-- Modelled from the spec: update the first document matching the
filter, returning the new document list and whether the document actually
changed; none when no document matches. -/
def updateFirst (docs : List Dict) (filterDoc setDoc : Dict) :
    Option (List Dict × Bool) :=
  match docs with
  | [] => none
  | d :: rest =>
      if filterMatches filterDoc d then
        let d1 := applySet d setDoc
        some (d1 :: rest, !beqFields d d1)
      else
        match updateFirst rest filterDoc setDoc with
        | some (rest1, changed) => some (d :: rest1, changed)
        | none => none

/-- Modelled from the spec (glossary): one bulk-write operation applied
to the store.  An insert appends the document and counts one inserted; an
upsert-by-filter updates the first matching document (one matched, one
modified if it changed) or, with no match, inserts the document built
from filter plus set fields and counts one upserted. -/
def applyOp (st : Store) (op : WriteOp) : Store × BulkCounts :=
  match op with
  | .insertOne doc => (⟨st.docs ++ [doc]⟩, ⟨1, 0, 0, 0⟩)
  | .updateOne filterDoc doc =>
      match updateFirst st.docs filterDoc doc with
      | some (docs1, changed) =>
          (⟨docs1⟩, ⟨0, 0, 1, if changed then 1 else 0⟩)
      | none =>
          (⟨st.docs ++ [applySet (applySet [] filterDoc) doc]⟩, ⟨0, 1, 0, 0⟩)

/-- Modelled from the spec: an unordered bulk write applies each
operation of the batch and reports the summed outcome counters of that
batch. -/
def bulkWrite (st : Store) (ops : List WriteOp) : Store × BulkCounts :=
  match ops with
  | [] => (st, BulkCounts.zero)
  | op :: rest =>
      let r1 := applyOp st op
      let r2 := bulkWrite r1.1 rest
      (r2.1, BulkCounts.add r1.2 r2.2)

/-- Summary counters of one import call (the counts dict of main.py lines
175-182). -/
structure Counts where
  processed : Nat
  skipped : Nat
  inserted : Nat
  upserted : Nat
  matched : Nat
  modified : Nat

/-- Counters at import start: all zero. -/
def Counts.zero : Counts := ⟨0, 0, 0, 0, 0, 0⟩

/-- Increment of the processed counter. -/
def incProcessed (c : Counts) : Counts :=
  ⟨c.processed + 1, c.skipped, c.inserted, c.upserted, c.matched, c.modified⟩

/-- Increment of the skipped counter. -/
def incSkipped (c : Counts) : Counts :=
  ⟨c.processed, c.skipped + 1, c.inserted, c.upserted, c.matched, c.modified⟩

/-- Accumulation of one flushed batch result into the summary counters
(main.py lines 227-230 and 239-242). -/
def flushCounts (c : Counts) (bc : BulkCounts) : Counts :=
  ⟨c.processed, c.skipped, c.inserted + bc.inserted, c.upserted + bc.upserted,
   c.matched + bc.matched, c.modified + bc.modified⟩

/-- The per-call constants of one import run: the JSON decoder, the run
timestamp, the caller arguments and the payload metadata copied into
every enriched record. -/
structure Ctx where
  jsonParse : String → Option Val
  importedAt : String
  sourceUrl : String
  exportDate : Val
  tableName : Val
  nameFilter : Val
  totalEntities : Val
  parseData : Bool
  upsert : Bool

/-- Enrichment of one entity under the constants of a run. -/
def enrichEntity (ctx : Ctx) (entity : Dict) : Dict :=
  enrich ctx.jsonParse ctx.importedAt ctx.sourceUrl ctx.exportDate
    ctx.tableName ctx.nameFilter ctx.totalEntities ctx.parseData entity

/-- Mutable state of the entity loop: the running counters, the pending
operation list, the store, and the record of every batch flushed so far
together with its bulk-write result. -/
structure LoopState where
  counts : Counts
  ops : List WriteOp
  store : Store
  batches : List (List WriteOp × BulkCounts)

/-- One iteration of the entity loop (main.py lines 185-231): a
non-structured entity only counts as skipped; a structured entity is
enriched, turned into a write operation and appended to the pending list,
and the pending list is flushed as one bulk write as soon as it reaches
the batch size. -/
def ingestStep (ctx : Ctx) (batchSize : Nat) (s : LoopState) (entity : Val) :
    LoopState :=
  match entity with
  | .vobj fields =>
      let doc := enrichEntity ctx fields
      let op := buildOp ctx.upsert doc
      let ops := s.ops ++ [op]
      let c := incProcessed s.counts
      if batchSize ≤ ops.length then
        let r := bulkWrite s.store ops
        ⟨flushCounts c r.2, [], r.1, s.batches ++ [(ops, r.2)]⟩
      else
        ⟨c, ops, s.store, s.batches⟩
  | _ => ⟨incSkipped s.counts, s.ops, s.store, s.batches⟩

/-- The whole entity loop as a fold over the entity list. -/
def ingestLoop (ctx : Ctx) (batchSize : Nat) (s : LoopState)
    (entities : List Val) : LoopState :=
  entities.foldl (ingestStep ctx batchSize) s

/-- Result of one import call: the summary counters, the final store, and
the flushed batches with their per-batch results. -/
structure Ingested where
  counts : Counts
  store : Store
  batches : List (List WriteOp × BulkCounts)

/-- End-of-stream flush (main.py lines 233-242): operations still pending
after the entity loop go out in one final bulk write; nothing is flushed
when none are pending. -/
def finalFlush (s : LoopState) : Ingested :=
  if s.ops.isEmpty then
    ⟨s.counts, s.store, s.batches⟩
  else
    let r := bulkWrite s.store s.ops
    ⟨flushCounts s.counts r.2, r.1, s.batches ++ [(s.ops, r.2)]⟩

/-- The run constants extracted from the payload and the caller arguments
(main.py lines 169-173). -/
def payloadCtx (jsonParse : String → Option Val) (importedAt : String)
    (payload : Dict) (sourceUrl : String) (parseData upsert : Bool) : Ctx :=
  ⟨jsonParse, importedAt, sourceUrl, dGetD payload "exportDate",
    dGetD payload "tableName", dGetD payload "nameFilter",
    dGetD payload "totalEntities", parseData, upsert⟩

/-- The import call _ingest_historical_payload (main.py lines 156-244):
fails when the store handle is unavailable or the entities field of the
payload is missing or not a list; otherwise runs the entity loop, flushes
any remaining pending operations, and returns the summary. -/
def ingestHistoricalPayload (jsonParse : String → Option Val)
    (importedAt : String) (historyReady : Bool) (payload : Dict)
    (sourceUrl : String) (parseData upsert : Bool) (batchSize : Nat)
    (store : Store) : Except String Ingested :=
  if !historyReady then
    .error "MongoDB not initialized"
  else
    match dGetD payload "entities" with
    | .vlist entities =>
        let ctx := payloadCtx jsonParse importedAt payload sourceUrl
          parseData upsert
        let s := ingestLoop ctx batchSize ⟨Counts.zero, [], store, []⟩ entities
        .ok (finalFlush s)
    | _ => .error "Historical data payload missing entities list"

/-- Check that every structured entity of a list resolves to a key after
enrichment (the hypothesis of the idempotence property). -/
def allKeyed (ctx : Ctx) (entities : List Val) : Bool :=
  entities.all fun e =>
    match e with
    | .vobj fields => (resolveFilter (enrichEntity ctx fields)).isSome
    | _ => true

/-- Discriminator for upsert-by-key operations. -/
def WriteOp.isUpdate : WriteOp → Bool
  | .updateOne _ _ => true
  | .insertOne _ => false

/-- Presence test written from the words of the spec: the field is
present and non-null. -/
def presentNonNull (d : Dict) (key : String) : Bool :=
  match dGet d key with
  | some v => !v.isNull
  | none => false

/-- Key resolver written from the words of the spec (section 4.1), for
comparison with the resolver translated from the source: PartitionKey and
RowKey both present and non-null first, else name, else dataHash, else no
key. -/
def specKeyResolver (record : Dict) : Option Dict :=
  if presentNonNull record "PartitionKey" && presentNonNull record "RowKey" then
    some [("PartitionKey", dGetD record "PartitionKey"),
          ("RowKey", dGetD record "RowKey")]
  else if presentNonNull record "name" then
    some [("name", dGetD record "name")]
  else if presentNonNull record "dataHash" then
    some [("dataHash", dGetD record "dataHash")]
  else
    none

/-- Split of a character list at commas (Python str.split with a comma
separator). -/
def splitCommaAux (cs : List Char) (acc : List Char) : List (List Char) :=
  match cs with
  | [] => [acc.reverse]
  | c :: rest =>
      if c = ',' then acc.reverse :: splitCommaAux rest []
      else splitCommaAux rest (c :: acc)

/-- Whitespace stripping at both ends (Python str.strip). -/
def stripChars (cs : List Char) : List Char :=
  ((cs.dropWhile Char.isWhitespace).reverse.dropWhile Char.isWhitespace).reverse

/-- Digit-sequence reading for integer parsing: none unless every
character is a decimal digit. -/
def digitsToNat (cs : List Char) (acc : Nat) : Option Nat :=
  match cs with
  | [] => some acc
  | c :: rest =>
      if c.isDigit then digitsToNat rest (10 * acc + (c.toNat - 48))
      else none

/-- Integer literal parsing (Python int on a stripped non-empty string):
an optional sign followed by at least one digit. -/
def parseIntChars (cs : List Char) : Option Int :=
  match cs with
  | [] => none
  | '-' :: rest =>
      match rest with
      | [] => none
      | _ => (digitsToNat rest 0).map fun n => -(n : Int)
  | '+' :: rest =>
      match rest with
      | [] => none
      | _ => (digitsToNat rest 0).map fun n => (n : Int)
  | _ => (digitsToNat cs 0).map fun n => (n : Int)

/-- Comma-separated identifier parsing for the poller (_parse_rbls,
main.py lines 119-129): parts are stripped, blank parts and parts that do
not parse as integers are silently dropped. -/
def parseRbls (value : String) : List Int :=
  (splitCommaAux value.data []).foldr
    (fun part acc =>
      let t := stripChars part
      if t.isEmpty then acc
      else
        match parseIntChars t with
        | some n => n :: acc
        | none => acc)
    []

/-- Query-parameter accumulation (_add_params, main.py lines 87-96)
specialised to the integer identifiers the poller passes: each value is
rendered as text and appended under the key. -/
def addParams (params : List (String × String)) (key : String)
    (values : List Int) : List (String × String) :=
  params ++ values.map fun v => (key, toString v)

/-- Poll parameter construction (_build_poll_params, main.py lines
247-255): a non-monitor endpoint polls with no parameters; the monitor
endpoint needs at least one parsed identifier, else the tick is skipped
(none). -/
def buildPollParams (fetchEndpoint fetchRbls : String) :
    Option (List (String × String)) :=
  if fetchEndpoint ≠ "monitor" then some []
  else
    let rbls := parseRbls fetchRbls
    if rbls.isEmpty then none
    else some (addParams [] "rbl" rbls)

/-- Prefix test on character lists (Python str.startswith). -/
def startsWithChars : List Char → List Char → Bool
  | _, [] => true
  | [], _ :: _ => false
  | c :: cs, p :: ps => c == p && startsWithChars cs ps

/-- Prefix test on strings via their character lists. -/
def strStartsWith (s pre : String) : Bool :=
  startsWithChars s.data pre.data

/-- Outcome of the upstream GET issued by the poll tick: a transport
failure, or a response with status, content type, optionally decoded JSON
body (none when json() would fail) and raw text. -/
inductive FetchOutcome where
  | netError
  | response (status : Int) (contentType : String) (jsonBody : Option Val)
      (bodyText : String)

/-- The fetch-and-persist routine of one poll tick (_fetch_and_store,
main.py lines 132-153).  An uninitialized client or store makes the tick
a no-op; a transport failure is caught and makes the tick a no-op; a JSON
decode failure falls back to the raw text.  The store insert is the
insert_one boundary call, modelled as a fallible function whose failure
the routine does not catch.  The result is the snapshot document written,
none when nothing was written, or the uncaught store error. -/
def fetchAndStore (clientReady storeReady : Bool) (fetchedAt endpoint : String)
    (params : List (String × String)) (fetch : FetchOutcome)
    (insertOne : Dict → Except String Unit) : Except String (Option Dict) :=
  if !clientReady || !storeReady then .ok none
  else
    match fetch with
    | .netError => .ok none
    | .response status contentType jsonBody bodyText =>
        let payload : Val :=
          if strStartsWith contentType "application/json" then
            match jsonBody with
            | some v => v
            | none => .vstr bodyText
          else .vstr bodyText
        let doc : Dict :=
          [("fetched_at", .vstr fetchedAt),
           ("endpoint", .vstr endpoint),
           ("params", .vlist (params.map fun kv =>
             .vobj [("key", .vstr kv.1), ("value", .vstr kv.2)])),
           ("status_code", .vint status),
           ("data", payload)]
        (insertOne doc).map fun _ => some doc

/-- One iteration of the polling loop body (_poll_loop, main.py lines
258-263): build the poll parameters, and when they are produced run the
fetch-and-persist routine.  The loop body has no exception handler of its
own, so whatever fetchAndStore raises leaves the body. -/
def pollTick (clientReady storeReady : Bool)
    (fetchedAt fetchEndpoint fetchRbls : String) (fetch : FetchOutcome)
    (insertOne : Dict → Except String Unit) : Except String (Option Dict) :=
  match buildPollParams fetchEndpoint fetchRbls with
  | some params =>
      fetchAndStore clientReady storeReady fetchedAt fetchEndpoint params
        fetch insertOne
  | none => .ok none

/-- First entity of the idempotence counterexample payload: keyed on name
(and also carrying a dataHash). -/
def c3Entity1 : Val := .vobj [("name", .vstr "x"), ("dataHash", .vstr "h")]

/-- Second entity of the idempotence counterexample payload: null name,
so keyed on the same dataHash value. -/
def c3Entity2 : Val := .vobj [("name", .vnull), ("dataHash", .vstr "h")]

/-- Counterexample payload: two structured entities, each resolving a
key. -/
def c3Payload : Dict := [("entities", .vlist [c3Entity1, c3Entity2])]

/-- One import run of the counterexample payload with upsert requested. -/
def c3Run (importedAt : String) (st : Store) : Except String Ingested :=
  ingestHistoricalPayload (fun _ => none) importedAt true c3Payload "u"
    false true 5 st

/-- Observations of two successive counterexample runs from an empty
store: document count after run one, document count after run two, the
inserted counter of run two, how many documents of the final store match
the dataHash key filter of the second entity, and whether every
structured entity of the payload resolves a key. -/
def c3Observed : Option (Nat × Nat × Nat × Nat × Bool) :=
  match c3Run "t1" ⟨[]⟩ with
  | .ok r1 =>
      match c3Run "t2" r1.store with
      | .ok r2 =>
          some (r1.store.docs.length, r2.store.docs.length,
            r2.counts.inserted,
            (r2.store.docs.filter
              (filterMatches [("dataHash", .vstr "h")])).length,
            allKeyed (payloadCtx (fun _ => none) "t1" c3Payload "u" false true)
              [c3Entity1, c3Entity2])
      | .error _ => none
  | .error _ => none

/-- Structured-record test on an entity (Python isinstance of dict). -/
def Val.isStruct : Val → Bool
  | .vobj _ => true
  | _ => false

/-- Number of structured entities in a list. -/
def countStruct : List Val → Nat
  | [] => 0
  | e :: rest => (if Val.isStruct e then 1 else 0) + countStruct rest

/-- Number of non-structured entities in a list. -/
def countNonStruct : List Val → Nat
  | [] => 0
  | e :: rest => (if Val.isStruct e then 0 else 1) + countNonStruct rest

/-- Normalised view of a loop state: the counters and the store as they
will stand once the pending operations are flushed. -/
def normState (s : LoopState) : Counts × Store :=
  (flushCounts s.counts (bulkWrite s.store s.ops).2,
    (bulkWrite s.store s.ops).1)

/-- Batching-free reference semantics of one entity: the produced
operation is applied to the store at once. -/
def stepNorm (ctx : Ctx) (acc : Counts × Store) (entity : Val) :
    Counts × Store :=
  match entity with
  | .vobj fields =>
      let r := applyOp acc.2 (buildOp ctx.upsert (enrichEntity ctx fields))
      (flushCounts (incProcessed acc.1) r.2, r.1)
  | _ => (incSkipped acc.1, acc.2)

/-- Batch accounting invariant of a loop state: each aggregate counter
equals the sum of the corresponding per-batch result counts recorded so
far, and processed counts the flushed operations plus the pending
ones. -/
abbrev batchAccount (s : LoopState) : Prop :=
  s.counts.inserted = (s.batches.map fun b => b.2.inserted).sum
  ∧ s.counts.upserted = (s.batches.map fun b => b.2.upserted).sum
  ∧ s.counts.matched = (s.batches.map fun b => b.2.matched).sum
  ∧ s.counts.modified = (s.batches.map fun b => b.2.modified).sum
  ∧ s.counts.processed = (s.batches.map fun b => b.1.length).sum + s.ops.length

/-- Enriched document of the single entity of the sample payload used by
several witnesses. -/
def w3Doc : Dict :=
  [("name", .vstr "x"), ("imported_at", .vstr "t"), ("source_url", .vstr "u"),
   ("exportDate", .vnull), ("tableName", .vnull), ("nameFilter", .vnull),
   ("totalEntities", .vnull)]

/-- Sample payload with one structured, name-keyed entity. -/
def w3Payload : Dict := [("entities", .vlist [.vobj [("name", .vstr "x")]])]

/-- Result of importing the sample payload into an empty store with
upsert requested and batch size one. -/
def w3Result : Ingested :=
  ⟨⟨1, 0, 0, 1, 0, 0⟩, ⟨[w3Doc]⟩,
   [([.updateOne [("name", .vstr "x")] w3Doc], ⟨0, 1, 0, 0⟩)]⟩

/-! Lemmas about dict lookup and update. -/

/-- Lookup after update at the same key yields the written value. -/
theorem dGet_dSet_self (d : Dict) (key : String) (v : Val) :
    dGet (dSet d key v) key = some v := by
  induction d with
  | nil => simp [dSet, dGet]
  | cons kv rest ih =>
      obtain ⟨k, w⟩ := kv
      by_cases h : k = key
      · simp [dSet, dGet, h]
      · simp [dSet, dGet, h, ih]

/-- Lookup after update at a different key is unchanged. -/
theorem dGet_dSet_ne (d : Dict) (k1 key : String) (v : Val) (h : k1 ≠ key) :
    dGet (dSet d k1 v) key = dGet d key := by
  induction d with
  | nil => simp [dSet, dGet, h]
  | cons kv rest ih =>
      obtain ⟨k, w⟩ := kv
      by_cases hk : k = k1
      · subst hk
        simp [dSet, dGet, h]
      · simp [dSet, dGet, hk, ih]

/-- Metadata stamping never touches the data field. -/
theorem dGet_enrichBase_data (ia su : String) (ed tn nf te : Val) (e : Dict) :
    dGet (enrichBase ia su ed tn nf te e) "data" = dGet e "data" := by
  unfold enrichBase
  rw [dGet_dSet_ne _ _ _ _ (by decide), dGet_dSet_ne _ _ _ _ (by decide),
    dGet_dSet_ne _ _ _ _ (by decide), dGet_dSet_ne _ _ _ _ (by decide),
    dGet_dSet_ne _ _ _ _ (by decide), dGet_dSet_ne _ _ _ _ (by decide)]

/-- Negated null test of a dict.get read is the presence test of the
spec. -/
theorem notNull_present (d : Dict) (key : String) :
    (!(dGetD d key).isNull) = presentNonNull d key := by
  unfold dGetD presentNonNull
  cases dGet d key <;> simp [Val.isNull]

/-- C5: key resolution follows the fixed priority PartitionKey/RowKey,
then name, then dataHash, then no key: the resolver translated from the
source coincides with the resolver written from the words of the spec,
and in particular an entity with both PartitionKey/RowKey present and
non-null is always keyed on that pair, never on name. -/
theorem resolveFilter_priority :
    (∀ d : Dict, resolveFilter d = specKeyResolver d)
    ∧ (∀ d : Dict, presentNonNull d "PartitionKey" = true →
        presentNonNull d "RowKey" = true →
        resolveFilter d = some [("PartitionKey", dGetD d "PartitionKey"),
          ("RowKey", dGetD d "RowKey")]) := by
  have hmain : ∀ d : Dict, resolveFilter d = specKeyResolver d := by
    intro d
    simp only [resolveFilter, specKeyResolver, notNull_present]
  refine ⟨hmain, ?_⟩
  intro d h1 h2
  rw [hmain]
  unfold specKeyResolver
  rw [h1, h2]
  rfl

/-- C5 witness: a record carrying PartitionKey, RowKey and name is keyed
on the pair. -/
theorem resolveFilter_priority_witness :
    resolveFilter [("PartitionKey", .vstr "p"), ("RowKey", .vstr "r"),
        ("name", .vstr "n")] =
      some [("PartitionKey", .vstr "p"), ("RowKey", .vstr "r")] :=
  resolveFilter_priority.2
    [("PartitionKey", .vstr "p"), ("RowKey", .vstr "r"), ("name", .vstr "n")]
    rfl rfl

/-- C6: the produced write operation is an upsert-by-key exactly when the
caller requested upsert and a key resolved; in every other case (no
upsert requested, or no key resolved) it is a plain insert, and a keyless
record under requested upsert falls back to insert without error. -/
theorem buildOp_upsert_characterisation (u : Bool) (d : Dict) :
    ((∃ f, buildOp u d = .updateOne f d ∧ resolveFilter d = some f) ↔
      (u = true ∧ (resolveFilter d).isSome = true))
    ∧ (resolveFilter d = none → buildOp u d = .insertOne d)
    ∧ (u = false → buildOp u d = .insertOne d) := by
  cases u <;> cases h : resolveFilter d <;> simp [buildOp, h]

/-- C6 witness: a keyless record produces a plain insert both with and
without requested upsert. -/
theorem buildOp_upsert_characterisation_witness :
    buildOp true [] = .insertOne [] ∧ buildOp false [] = .insertOne [] :=
  ⟨(buildOp_upsert_characterisation true []).2.1 rfl,
   (buildOp_upsert_characterisation false []).2.2 rfl⟩

/-- C7: with parse_data set, a string data field that decodes as JSON is
replaced by the decoded structure; a string that does not decode stays
the original string with no error; with parse_data unset the data field
is left untouched. -/
theorem enrich_data_parsing (jp : String → Option Val) (ia su : String)
    (ed tn nf te : Val) (e : Dict) (s : String) :
    (∀ v : Val, dGet e "data" = some (.vstr s) → jp s = some v →
      dGet (enrich jp ia su ed tn nf te true e) "data" = some v)
    ∧ (dGet e "data" = some (.vstr s) → jp s = none →
      dGet (enrich jp ia su ed tn nf te true e) "data" = some (.vstr s))
    ∧ dGet (enrich jp ia su ed tn nf te false e) "data" = dGet e "data" := by
  have hbase := dGet_enrichBase_data ia su ed tn nf te e
  refine ⟨?_, ?_, ?_⟩
  · intro v hd hj
    simp [enrich, hbase, hd, hj, dGet_dSet_self]
  · intro hd hj
    simp [enrich, hbase, hd, hj]
  · simp [enrich, hbase]

/-- C7 witness: on a concrete record, a decodable data string is
replaced, a non-decodable one passes through, and parse_data false leaves
the field alone. -/
theorem enrich_data_parsing_witness :
    dGet (enrich (fun s => if s = "[1]" then some (.vlist [.vint 1]) else none)
      "t" "u" .vnull .vnull .vnull .vnull true [("data", .vstr "[1]")])
      "data" = some (.vlist [.vint 1])
    ∧ dGet (enrich (fun _ => none) "t" "u" .vnull .vnull .vnull .vnull true
      [("data", .vstr "not json")]) "data" = some (.vstr "not json")
    ∧ dGet (enrich (fun _ => none) "t" "u" .vnull .vnull .vnull .vnull false
      [("data", .vstr "[1]")]) "data" = some (.vstr "[1]") :=
  ⟨(enrich_data_parsing _ "t" "u" .vnull .vnull .vnull .vnull
      [("data", .vstr "[1]")] "[1]").1 (.vlist [.vint 1]) rfl rfl,
   (enrich_data_parsing (fun _ => none) "t" "u" .vnull .vnull .vnull .vnull
      [("data", .vstr "not json")] "not json").2.1 rfl rfl,
   ((enrich_data_parsing (fun _ => none) "t" "u" .vnull .vnull .vnull
      .vnull [("data", .vstr "[1]")] "[1]").2.2).trans rfl⟩

/-- C8: a payload whose entities field is missing or not a list makes
the import call fail with the input error, for every initial store: the
error result carries no summary and records no write. -/
theorem ingest_missing_entities_fails (jp : String → Option Val)
    (ia : String) (payload : Dict) (su : String) (pd up : Bool) (B : Nat)
    (st : Store) (h : ∀ l : List Val, dGetD payload "entities" ≠ Val.vlist l) :
    ingestHistoricalPayload jp ia true payload su pd up B st =
      Except.error "Historical data payload missing entities list" := by
  unfold ingestHistoricalPayload
  cases hE : dGetD payload "entities" with
  | vnull => rfl
  | vbool b => rfl
  | vint n => rfl
  | vstr s => rfl
  | vlist l => exact absurd hE (h l)
  | vobj fields => rfl

/-- C8 witness: a payload with no entities key fails with the input
error. -/
theorem ingest_missing_entities_fails_witness :
    ingestHistoricalPayload (fun _ => none) "t" true [] "u" true true 1 ⟨[]⟩ =
      Except.error "Historical data payload missing entities list" :=
  ingest_missing_entities_fails _ _ _ _ _ _ _ _
    (fun _ hl => by simp [dGetD, dGet] at hl)

/-- C9 is refuted as stated: a store failure inside the fetch-and-persist
routine of a tick is not swallowed — with poll parameters produced, a
good upstream response and a failing store insert, the loop body raises
the store error past itself. -/
theorem pollTick_store_failure_raises :
    pollTick true true "t" "monitor" "1"
      (.response 200 "application/json" (some (.vobj [])) "")
      (fun _ => .error "store failure") = .error "store failure" := rfl

/-- C9 amended: a network failure inside the tick is swallowed (the tick
completes without raising and writes nothing), but a store failure inside
the tick propagates out of the loop body. -/
theorem pollTick_network_swallowed_store_raises :
    (∀ (cr sr : Bool) (fa ep : String) (ps : List (String × String))
        (ins : Dict → Except String Unit),
      fetchAndStore cr sr fa ep ps .netError ins = .ok none)
    ∧ (∀ (fa ep : String) (ps : List (String × String)) (status : Int)
        (ct : String) (jb : Option Val) (tx errMsg : String),
      fetchAndStore true true fa ep ps (.response status ct jb tx)
        (fun _ => .error errMsg) = .error errMsg) := by
  constructor
  · intro cr sr fa ep ps ins
    cases cr <;> cases sr <;> rfl
  · intro fa ep ps status ct jb tx errMsg
    rfl

/-- C3 is refuted as stated: on the counterexample payload every
structured entity resolves a key and the second upsert run from the store
left by the first reports inserted = 0, but the second run grows the
store from one to two documents, leaving two documents that match the
dataHash key filter of the second entity — duplicate documents under a
resolvable key. -/
theorem ingest_second_run_creates_duplicates :
    c3Observed = some (1, 2, 0, 2, true) := by rfl

/-! Accounting lemmas about batch results. -/

/-- Left identity of the counter sum. -/
theorem BulkCounts.zero_add (a : BulkCounts) : BulkCounts.add .zero a = a := by
  cases a
  simp [add, zero]

/-- Right identity of the counter sum. -/
theorem BulkCounts.add_zero (a : BulkCounts) : BulkCounts.add a .zero = a := by
  cases a
  simp [add, zero]

/-- Associativity of the counter sum. -/
theorem BulkCounts.add_assoc (a b c : BulkCounts) :
    BulkCounts.add (BulkCounts.add a b) c =
      BulkCounts.add a (BulkCounts.add b c) := by
  cases a
  cases b
  cases c
  simp [add, Nat.add_assoc]

/-- Flushing a zero batch result leaves the summary alone. -/
theorem flushCounts_zero (c : Counts) : flushCounts c .zero = c := by
  cases c
  simp [flushCounts, BulkCounts.zero]

/-- Two flushes accumulate like the sum of their batch results. -/
theorem flushCounts_flushCounts (c : Counts) (a b : BulkCounts) :
    flushCounts (flushCounts c a) b = flushCounts c (BulkCounts.add a b) := by
  cases c
  simp [flushCounts, BulkCounts.add, Nat.add_assoc]

/-- Flushing commutes with the processed increment. -/
theorem flushCounts_incProcessed (c : Counts) (a : BulkCounts) :
    flushCounts (incProcessed c) a = incProcessed (flushCounts c a) := by
  cases c
  simp [flushCounts, incProcessed]

/-- Flushing commutes with the skipped increment. -/
theorem flushCounts_incSkipped (c : Counts) (a : BulkCounts) :
    flushCounts (incSkipped c) a = incSkipped (flushCounts c a) := by
  cases c
  simp [flushCounts, incSkipped]

/-- A bulk write of a concatenation is the two bulk writes in sequence
with summed counters. -/
theorem bulkWrite_append (st : Store) (l1 l2 : List WriteOp) :
    bulkWrite st (l1 ++ l2) =
      ((bulkWrite (bulkWrite st l1).1 l2).1,
        BulkCounts.add (bulkWrite st l1).2
          (bulkWrite (bulkWrite st l1).1 l2).2) := by
  induction l1 generalizing st with
  | nil => simp [bulkWrite, BulkCounts.zero_add]
  | cons op rest ih => simp [bulkWrite, ih, BulkCounts.add_assoc]

/-- One loop iteration commutes with normalisation, for every batch
size: flushing merely moves pending work into the counters and store. -/
theorem normState_ingestStep (ctx : Ctx) (B : Nat) (s : LoopState) (e : Val) :
    normState (ingestStep ctx B s e) = stepNorm ctx (normState s) e := by
  cases e
  case vobj fields =>
    simp only [ingestStep, stepNorm]
    split
    · simp [normState, bulkWrite, bulkWrite_append, BulkCounts.add_zero,
        flushCounts_zero, flushCounts_flushCounts, flushCounts_incProcessed]
    · simp [normState, bulkWrite, bulkWrite_append, BulkCounts.add_zero,
        flushCounts_flushCounts, flushCounts_incProcessed]
  all_goals
    simp [ingestStep, stepNorm, normState, flushCounts_incSkipped]

/-- The whole loop commutes with normalisation. -/
theorem normState_ingestLoop (ctx : Ctx) (B : Nat) (es : List Val)
    (s : LoopState) :
    normState (ingestLoop ctx B s es) = es.foldl (stepNorm ctx) (normState s) := by
  induction es generalizing s with
  | nil => rfl
  | cons e rest ih =>
      have h := ih (ingestStep ctx B s e)
      simp only [ingestLoop, List.foldl_cons] at h ⊢
      rw [h, normState_ingestStep]

/-- The end-of-stream flush realises exactly the normalised view. -/
theorem finalFlush_normState (s : LoopState) :
    ((finalFlush s).counts, (finalFlush s).store) = normState s := by
  obtain ⟨c, ops, st, bs⟩ := s
  cases ops with
  | nil => simp [finalFlush, normState, bulkWrite, flushCounts_zero]
  | cons op rest => simp [finalFlush, normState]

/-- Unfolding of a successful import call on a payload with an entities
list. -/
theorem ingest_ok_elim (jp : String → Option Val) (ia : String)
    (payload : Dict) (su : String) (pd up : Bool) (B : Nat) (st : Store)
    (es : List Val) (hE : dGetD payload "entities" = Val.vlist es) :
    ingestHistoricalPayload jp ia true payload su pd up B st =
      .ok (finalFlush (ingestLoop (payloadCtx jp ia payload su pd up) B
        ⟨Counts.zero, [], st, []⟩ es)) := by
  unfold ingestHistoricalPayload
  rw [hE]
  rfl

/-- Counters and store of a successful import call are the batching-free
fold over the entities. -/
theorem ingest_ok_normState (jp : String → Option Val) (ia : String)
    (payload : Dict) (su : String) (pd up : Bool) (B : Nat) (st : Store)
    (es : List Val) (hE : dGetD payload "entities" = Val.vlist es)
    (r : Ingested)
    (hr : ingestHistoricalPayload jp ia true payload su pd up B st = .ok r) :
    (r.counts, r.store) =
      es.foldl (stepNorm (payloadCtx jp ia payload su pd up))
        (Counts.zero, st) := by
  rw [ingest_ok_elim jp ia payload su pd up B st es hE] at hr
  injection hr with hr
  subst hr
  rw [finalFlush_normState, normState_ingestLoop]
  simp [normState, bulkWrite, flushCounts_zero]

/-- C4: for every payload and every pair of batch sizes at least one,
the import produces identical summary counters against the same initial
store; batching only groups operations. -/
theorem ingest_counters_batch_independent (jp : String → Option Val)
    (ia : String) (payload : Dict) (su : String) (pd up : Bool)
    (B1 B2 : Nat) (st : Store) (h1 : 1 ≤ B1) (h2 : 1 ≤ B2) :
    (ingestHistoricalPayload jp ia true payload su pd up B1 st).map
        (fun r => r.counts)
      = (ingestHistoricalPayload jp ia true payload su pd up B2 st).map
        (fun r => r.counts) := by
  cases hE : dGetD payload "entities" with
  | vlist es =>
      rw [ingest_ok_elim jp ia payload su pd up B1 st es hE,
        ingest_ok_elim jp ia payload su pd up B2 st es hE]
      simp only [Except.map]
      have k1 := finalFlush_normState
        (ingestLoop (payloadCtx jp ia payload su pd up) B1
          ⟨Counts.zero, [], st, []⟩ es)
      have k2 := finalFlush_normState
        (ingestLoop (payloadCtx jp ia payload su pd up) B2
          ⟨Counts.zero, [], st, []⟩ es)
      rw [normState_ingestLoop] at k1 k2
      have c1 := congrArg Prod.fst k1
      have c2 := congrArg Prod.fst k2
      simp only at c1 c2
      rw [c1, c2]
  | vnull =>
      unfold ingestHistoricalPayload
      rw [hE]
  | vbool b =>
      unfold ingestHistoricalPayload
      rw [hE]
  | vint n =>
      unfold ingestHistoricalPayload
      rw [hE]
  | vstr s =>
      unfold ingestHistoricalPayload
      rw [hE]
  | vobj fields =>
      unfold ingestHistoricalPayload
      rw [hE]

/-- C4 witness: batch sizes one and two give the same counters on a
one-entity payload. -/
theorem ingest_counters_batch_independent_witness :
    (ingestHistoricalPayload (fun _ => none) "t" true
        [("entities", .vlist [.vobj [("name", .vstr "x")]])] "u" false true 1
        ⟨[]⟩).map (fun r => r.counts)
      = (ingestHistoricalPayload (fun _ => none) "t" true
        [("entities", .vlist [.vobj [("name", .vstr "x")]])] "u" false true 2
        ⟨[]⟩).map (fun r => r.counts) :=
  ingest_counters_batch_independent (fun _ => none) "t"
    [("entities", .vlist [.vobj [("name", .vstr "x")]])] "u" false true 1 2
    ⟨[]⟩ (by decide) (by decide)

/-- The batching-free fold counts processed entities: one per structured
entity. -/
theorem stepNorm_fold_processed (ctx : Ctx) (es : List Val)
    (acc : Counts × Store) :
    (es.foldl (stepNorm ctx) acc).1.processed
      = acc.1.processed + countStruct es := by
  induction es generalizing acc with
  | nil => simp [countStruct]
  | cons e rest ih =>
      rw [List.foldl_cons, ih]
      cases e <;>
        simp [stepNorm, countStruct, Val.isStruct, flushCounts,
          incProcessed, incSkipped] <;>
        omega

/-- The batching-free fold counts skipped entities: one per
non-structured entity. -/
theorem stepNorm_fold_skipped (ctx : Ctx) (es : List Val)
    (acc : Counts × Store) :
    (es.foldl (stepNorm ctx) acc).1.skipped
      = acc.1.skipped + countNonStruct es := by
  induction es generalizing acc with
  | nil => simp [countNonStruct]
  | cons e rest ih =>
      rw [List.foldl_cons, ih]
      cases e <;>
        simp [stepNorm, countNonStruct, Val.isStruct, flushCounts,
          incProcessed, incSkipped] <;>
        omega

/-- Structured and non-structured entities together exhaust the list. -/
theorem countStruct_total (es : List Val) :
    countStruct es + countNonStruct es = es.length := by
  induction es with
  | nil => rfl
  | cons e rest ih =>
      cases e <;> simp [countStruct, countNonStruct, Val.isStruct] <;> omega

/-- C2: for a payload whose entities field is a list of N elements,
processed counts exactly the structured entities, skipped counts exactly
the non-structured ones, and processed + skipped = N. -/
theorem ingest_processed_skipped_total (jp : String → Option Val)
    (ia : String) (payload : Dict) (su : String) (pd up : Bool) (B : Nat)
    (st : Store) (es : List Val)
    (hE : dGetD payload "entities" = Val.vlist es) (r : Ingested)
    (hr : ingestHistoricalPayload jp ia true payload su pd up B st = .ok r) :
    r.counts.processed = countStruct es
    ∧ r.counts.skipped = countNonStruct es
    ∧ r.counts.processed + r.counts.skipped = es.length := by
  have hb := ingest_ok_normState jp ia payload su pd up B st es hE r hr
  have hc : r.counts =
      (es.foldl (stepNorm (payloadCtx jp ia payload su pd up))
        (Counts.zero, st)).1 := congrArg Prod.fst hb
  have hp := stepNorm_fold_processed (payloadCtx jp ia payload su pd up) es
    (Counts.zero, st)
  have hs := stepNorm_fold_skipped (payloadCtx jp ia payload su pd up) es
    (Counts.zero, st)
  refine ⟨?_, ?_, ?_⟩
  · rw [hc, hp]
    simp [Counts.zero]
  · rw [hc, hs]
    simp [Counts.zero]
  · rw [hc, hp, hs]
    simp [Counts.zero, countStruct_total]

/-- C2 witness: the one-entity sample payload gives processed one,
skipped zero, summing to the entity count. -/
theorem ingest_processed_skipped_total_witness :
    w3Result.counts.processed = countStruct [Val.vobj [("name", Val.vstr "x")]]
    ∧ w3Result.counts.skipped
      = countNonStruct [Val.vobj [("name", Val.vstr "x")]]
    ∧ w3Result.counts.processed + w3Result.counts.skipped
      = [Val.vobj [("name", Val.vstr "x")]].length :=
  ingest_processed_skipped_total (fun _ => none) "t" w3Payload "u" false true
    1 ⟨[]⟩ [Val.vobj [("name", Val.vstr "x")]] rfl w3Result rfl

/-- One loop iteration preserves the batch accounting invariant. -/
theorem ingestStep_batchAccount (ctx : Ctx) (B : Nat) (s : LoopState)
    (e : Val) (h : batchAccount s) : batchAccount (ingestStep ctx B s e) := by
  obtain ⟨h1, h2, h3, h4, h5⟩ := h
  cases e
  case vobj fields =>
    simp only [ingestStep]
    split
    · refine ⟨?_, ?_, ?_, ?_, ?_⟩ <;>
        simp [flushCounts, incProcessed, List.map_append, List.sum_append,
          h1, h2, h3, h4, h5] <;>
        omega
    · refine ⟨?_, ?_, ?_, ?_, ?_⟩ <;>
        simp [incProcessed, h1, h2, h3, h4, h5] <;>
        omega
  all_goals exact ⟨h1, h2, h3, h4, h5⟩

/-- The whole loop preserves the batch accounting invariant. -/
theorem ingestLoop_batchAccount (ctx : Ctx) (B : Nat) (es : List Val) :
    ∀ s : LoopState, batchAccount s → batchAccount (ingestLoop ctx B s es) := by
  induction es with
  | nil => exact fun s h => h
  | cons e rest ih =>
      intro s h
      exact ih (ingestStep ctx B s e) (ingestStep_batchAccount ctx B s e h)

/-- The end-of-stream flush settles the accounting: afterwards every
counter is the sum over the recorded batches and processed is the total
number of flushed operations. -/
theorem finalFlush_account (s : LoopState) (h : batchAccount s) :
    (finalFlush s).counts.inserted
      = ((finalFlush s).batches.map fun b => b.2.inserted).sum
    ∧ (finalFlush s).counts.upserted
      = ((finalFlush s).batches.map fun b => b.2.upserted).sum
    ∧ (finalFlush s).counts.matched
      = ((finalFlush s).batches.map fun b => b.2.matched).sum
    ∧ (finalFlush s).counts.modified
      = ((finalFlush s).batches.map fun b => b.2.modified).sum
    ∧ (finalFlush s).counts.processed
      = ((finalFlush s).batches.map fun b => b.1.length).sum := by
  obtain ⟨h1, h2, h3, h4, h5⟩ := h
  obtain ⟨c, ops, st, bs⟩ := s
  cases ops with
  | nil =>
      refine ⟨?_, ?_, ?_, ?_, ?_⟩ <;>
        simp only [finalFlush] <;>
        simp_all
  | cons op rest =>
      refine ⟨?_, ?_, ?_, ?_, ?_⟩ <;>
        simp only [finalFlush] <;>
        simp_all [flushCounts, List.map_append, List.sum_append] <;>
        omega

/-- C1: the summary counters of every import call that returns a summary
equal the sums of the corresponding per-batch bulk-write result counts
over all flushed batches, and every produced operation went out in
exactly one recorded flush — operations pending after the entity loop
included, via the final bulk write (processed equals the total size of
the flushed batches). -/
theorem ingest_counts_eq_batch_sums (jp : String → Option Val) (ia : String)
    (payload : Dict) (su : String) (pd up : Bool) (B : Nat) (st : Store)
    (es : List Val) (hE : dGetD payload "entities" = Val.vlist es)
    (r : Ingested)
    (hr : ingestHistoricalPayload jp ia true payload su pd up B st = .ok r) :
    r.counts.inserted = (r.batches.map fun b => b.2.inserted).sum
    ∧ r.counts.upserted = (r.batches.map fun b => b.2.upserted).sum
    ∧ r.counts.matched = (r.batches.map fun b => b.2.matched).sum
    ∧ r.counts.modified = (r.batches.map fun b => b.2.modified).sum
    ∧ r.counts.processed = (r.batches.map fun b => b.1.length).sum := by
  rw [ingest_ok_elim jp ia payload su pd up B st es hE] at hr
  injection hr with hr
  subst hr
  exact finalFlush_account _
    (ingestLoop_batchAccount (payloadCtx jp ia payload su pd up) B es
      ⟨Counts.zero, [], st, []⟩ ⟨rfl, rfl, rfl, rfl, rfl⟩)

/-- C1 witness: on the one-entity sample run the counters equal the
batch sums. -/
theorem ingest_counts_eq_batch_sums_witness :
    w3Result.counts.inserted = (w3Result.batches.map fun b => b.2.inserted).sum
    ∧ w3Result.counts.upserted
      = (w3Result.batches.map fun b => b.2.upserted).sum
    ∧ w3Result.counts.matched
      = (w3Result.batches.map fun b => b.2.matched).sum
    ∧ w3Result.counts.modified
      = (w3Result.batches.map fun b => b.2.modified).sum
    ∧ w3Result.counts.processed
      = (w3Result.batches.map fun b => b.1.length).sum :=
  ingest_counts_eq_batch_sums (fun _ => none) "t" w3Payload "u" false true
    1 ⟨[]⟩ [Val.vobj [("name", Val.vstr "x")]] rfl w3Result rfl

/-- One loop iteration keeps every recorded batch at exactly the batch
size and the pending list strictly below it. -/
theorem ingestStep_batchesBound (ctx : Ctx) (B : Nat) (hB : 1 ≤ B)
    (s : LoopState) (e : Val) (hops : s.ops.length < B)
    (hbs : ∀ b ∈ s.batches, b.1.length = B) :
    (ingestStep ctx B s e).ops.length < B
    ∧ ∀ b ∈ (ingestStep ctx B s e).batches, b.1.length = B := by
  cases e
  case vobj fields =>
    simp only [ingestStep]
    split
    next h =>
      simp only [List.length_append, List.length_cons, List.length_nil] at h
      constructor
      · simpa using hB
      · intro b hb
        rcases List.mem_append.mp hb with hmem | hmem
        · exact hbs b hmem
        · have hb2 : b = (s.ops ++ [buildOp ctx.upsert (enrichEntity ctx fields)],
              (bulkWrite s.store
                (s.ops ++ [buildOp ctx.upsert (enrichEntity ctx fields)])).2) := by
            simpa using hmem
          subst hb2
          simp only [List.length_append, List.length_cons, List.length_nil]
          omega
    next h =>
      simp only [List.length_append, List.length_cons, List.length_nil] at h
      refine ⟨?_, hbs⟩
      simp only [List.length_append, List.length_cons, List.length_nil]
      omega
  all_goals exact ⟨hops, hbs⟩

/-- The whole loop keeps every recorded batch at exactly the batch size
and the pending list strictly below it. -/
theorem ingestLoop_batchesBound (ctx : Ctx) (B : Nat) (hB : 1 ≤ B)
    (es : List Val) :
    ∀ s : LoopState, s.ops.length < B → (∀ b ∈ s.batches, b.1.length = B) →
      (ingestLoop ctx B s es).ops.length < B
      ∧ ∀ b ∈ (ingestLoop ctx B s es).batches, b.1.length = B := by
  induction es with
  | nil => exact fun s h1 h2 => ⟨h1, h2⟩
  | cons e rest ih =>
      intro s h1 h2
      obtain ⟨k1, k2⟩ := ingestStep_batchesBound ctx B hB s e h1 h2
      exact ih (ingestStep ctx B s e) k1 k2

/-- The end-of-stream flush keeps every batch inside the bound: the
possibly partial final batch is non-empty and at most the batch size. -/
theorem finalFlush_batchesBound (B : Nat) (hB : 1 ≤ B) (s : LoopState)
    (hops : s.ops.length < B) (hbs : ∀ b ∈ s.batches, b.1.length = B) :
    (∀ b ∈ (finalFlush s).batches, 1 ≤ b.1.length ∧ b.1.length ≤ B)
    ∧ ∀ b ∈ (finalFlush s).batches.dropLast, b.1.length = B := by
  obtain ⟨c, ops, st, bs⟩ := s
  cases ops with
  | nil =>
      constructor
      · intro b hb
        have hbB := hbs b (by simpa [finalFlush] using hb)
        omega
      · intro b hb
        exact hbs b (List.dropLast_subset _ (by simpa [finalFlush] using hb))
  | cons op rest =>
      simp only [List.length_cons] at hops
      constructor
      · intro b hb
        rcases (by simpa [finalFlush] using hb :
            b ∈ bs ∨ b = (op :: rest, (bulkWrite st (op :: rest)).2)) with
          hmem | hb2
        · have hbB := hbs b hmem
          omega
        · subst hb2
          simp only [List.length_cons]
          omega
      · intro b hb
        have hb3 : b ∈ bs := by
          have : (finalFlush ⟨c, op :: rest, st, bs⟩).batches
              = bs ++ [(op :: rest, (bulkWrite st (op :: rest)).2)] := rfl
          rw [this, List.dropLast_concat] at hb
          exact hb
        exact hbs b hb3

/-- C10: with batch size B at least one, every bulk write recorded
during the import carries a non-empty operation list of length at most
B, every batch except possibly the last carries exactly B operations,
and the end-of-stream flush is skipped when nothing is pending (so no
empty batch is ever recorded). -/
theorem ingest_batches_bounded (jp : String → Option Val) (ia : String)
    (payload : Dict) (su : String) (pd up : Bool) (B : Nat) (st : Store)
    (es : List Val) (hB : 1 ≤ B)
    (hE : dGetD payload "entities" = Val.vlist es) (r : Ingested)
    (hr : ingestHistoricalPayload jp ia true payload su pd up B st = .ok r) :
    (∀ b ∈ r.batches, 1 ≤ b.1.length ∧ b.1.length ≤ B)
    ∧ ∀ b ∈ r.batches.dropLast, b.1.length = B := by
  rw [ingest_ok_elim jp ia payload su pd up B st es hE] at hr
  injection hr with hr
  subst hr
  obtain ⟨k1, k2⟩ := ingestLoop_batchesBound (payloadCtx jp ia payload su pd up)
    B hB es ⟨Counts.zero, [], st, []⟩ hB
    (fun b hb => absurd hb (List.not_mem_nil b))
  exact finalFlush_batchesBound B hB _ k1 k2

/-- C10 witness: on the one-entity sample run with batch size one, the
single recorded batch has length exactly one. -/
theorem ingest_batches_bounded_witness :
    (∀ b ∈ w3Result.batches, 1 ≤ b.1.length ∧ b.1.length ≤ 1)
    ∧ ∀ b ∈ w3Result.batches.dropLast, b.1.length = 1 :=
  ingest_batches_bounded (fun _ => none) "t" w3Payload "u" false true
    1 ⟨[]⟩ [Val.vobj [("name", Val.vstr "x")]] (by decide) rfl w3Result rfl

/-- With upsert requested, every step of the batching-free fold over
all-keyed entities produces an upsert-by-key operation, so the inserted
counter stays zero. -/
theorem stepNorm_fold_inserted_zero (ctx : Ctx) (hup : ctx.upsert = true) :
    ∀ es : List Val, allKeyed ctx es = true →
      ∀ acc : Counts × Store, acc.1.inserted = 0 →
        (es.foldl (stepNorm ctx) acc).1.inserted = 0 := by
  intro es
  induction es with
  | nil => exact fun _ acc h => h
  | cons e rest ih =>
      intro hK acc hacc
      simp only [allKeyed, List.all_cons, Bool.and_eq_true] at hK
      obtain ⟨hke, hkr⟩ := hK
      rw [List.foldl_cons]
      refine ih hkr _ ?_
      cases e
      case vobj fields =>
        have hke2 : (resolveFilter (enrichEntity ctx fields)).isSome = true := hke
        obtain ⟨f, hf⟩ := Option.isSome_iff_exists.mp hke2
        simp only [stepNorm, buildOp, hup, hf]
        cases hu : updateFirst acc.2.docs f (enrichEntity ctx fields) with
        | some p => simp [applyOp, hu, flushCounts, incProcessed, hacc]
        | none => simp [applyOp, hu, flushCounts, incProcessed, hacc]
      all_goals simpa [stepNorm, incSkipped] using hacc

/-- C3 amended: with upsert requested on a payload whose structured
entities all resolve keys, every import run — in particular the second
of two identical runs against the same store — reports inserted = 0,
because every produced operation is an upsert-by-key and the inserted
counter only counts plain inserts.  The no-duplicates half of the
original claim fails: such a second run can still create net-new
documents under overlapping alternate keys. -/
theorem ingest_upsert_keyed_inserted_zero (jp : String → Option Val)
    (ia : String) (payload : Dict) (su : String) (pd : Bool) (B : Nat)
    (st : Store) (es : List Val)
    (hE : dGetD payload "entities" = Val.vlist es)
    (hK : allKeyed (payloadCtx jp ia payload su pd true) es = true)
    (r : Ingested)
    (hr : ingestHistoricalPayload jp ia true payload su pd true B st = .ok r) :
    r.counts.inserted = 0 := by
  have hb := ingest_ok_normState jp ia payload su pd true B st es hE r hr
  have hc : r.counts =
      (es.foldl (stepNorm (payloadCtx jp ia payload su pd true))
        (Counts.zero, st)).1 := congrArg Prod.fst hb
  rw [hc]
  exact stepNorm_fold_inserted_zero (payloadCtx jp ia payload su pd true) rfl
    es hK (Counts.zero, st) rfl

/-- C3 amended witness: the upsert run of the one-entity sample payload
reports inserted zero. -/
theorem ingest_upsert_keyed_inserted_zero_witness :
    w3Result.counts.inserted = 0 :=
  ingest_upsert_keyed_inserted_zero (fun _ => none) "t" w3Payload "u" false
    1 ⟨[]⟩ [Val.vobj [("name", Val.vstr "x")]] rfl rfl w3Result rfl

end WeatherDelay
